import Mathlib

/-!
Verification development for the STRR permit validation service
(`strr_api/services/validation_service.py`).

The Python source is shallowly embedded: strings are lists of characters
(`Str := List Char`), the regular-expression substitutions of
`_get_filtered_unit_number` are rendered as explicit left-to-right scanners
with Python's word-boundary (`\b`) semantics, dictionaries holding the
request/response payloads become structures with `Option` fields (a `none`
field is an absent key / Python `None`), and Python attribute errors on
`None` are modelled with `Except`.
-/

set_option maxHeartbeats 1000000

/-- Python strings, embedded as lists of characters. -/
abbrev Str := List Char

/-- Python's whitespace class `\s` (and the default `str.strip` set),
restricted to ASCII: space, tab, newline, carriage return, vertical tab,
form feed. -/
def pyIsSpace (c : Char) : Bool :=
  c = ' ' || c = '\t' || c = '\n' || c = '\r' || c = '\x0b' || c = '\x0c'

/-- Python's word-character class `\w` restricted to ASCII:
letters, digits and underscore. -/
def pyIsWordChar (c : Char) : Bool :=
  c.isAlphanum || c = '_'

/-- `str.lower` on one character (ASCII, as in CPython for ASCII input). -/
def cLow (c : Char) : Char := c.toLower

/-- `str.upper` on one character (ASCII, as in CPython for ASCII input). -/
def cUp (c : Char) : Char := c.toUpper

/-- `str.lower`. -/
def toLowerS (s : Str) : Str := s.map cLow

/-- `str.upper`. -/
def toUpperS (s : Str) : Str := s.map cUp

/-- `str.strip()` : remove leading and trailing whitespace. -/
def pyStrip (s : Str) : Str :=
  ((s.dropWhile pyIsSpace).reverse.dropWhile pyIsSpace).reverse

/-- `str.replace(" ", "")` : remove every space character. -/
def removeSpaces (s : Str) : Str := s.filter (fun c => c ≠ ' ')

/-- `s.split(" ")[0]` : the characters before the first space. -/
def firstSpaceToken (s : Str) : Str := s.takeWhile (fun c => c ≠ ' ')

/-- `str(x)` applied to an optional JSON string value: Python renders the
missing value `None` as the text "None". -/
def pyStr (o : Option Str) : Str :=
  match o with
  | none => "None".data
  | some s => s

/-- Python truthiness of an optional string: `None` and `""` are falsy. -/
def pyTruthy (o : Option Str) : Bool :=
  match o with
  | none => false
  | some s => s ≠ []

/-! ### The Address Normalizer `_get_filtered_unit_number` -/

/-- Step 1, `re.sub(r"^[#-]+\s*", "", u)`: strip one leading run of `#`/`-`
characters together with the whitespace run that follows it (the pattern is
anchored, so it fires at most once, and only when the first character is
`#` or `-`). -/
def stripLeadingMarks (s : Str) : Str :=
  match s with
  | [] => []
  | c :: _ =>
    if c = '#' || c = '-' then
      (s.dropWhile (fun d => d = '#' || d = '-')).dropWhile pyIsSpace
    else s

/-- The alternatives of the keyword regex
`\b(Suite|Unit|SL|Strata Lot|Room|Lot|RM|Cabin|Bldg|ste|Nbr|Unt|Apartment|Apt|Number|Num|Floor|Flr|Fl|BUILDING|No\.?)`
in the order the regex engine tries them (matching is case-insensitive, so
each is stored lower-cased; the greedy optional dot of `No\.?` makes "no."
an alternative tried just before "no"). -/
def kwList : List Str :=
  ["suite".data, "unit".data, "sl".data, "strata lot".data, "room".data,
   "lot".data, "rm".data, "cabin".data, "bldg".data, "ste".data, "nbr".data,
   "unt".data, "apartment".data, "apt".data, "number".data, "num".data,
   "floor".data, "flr".data, "fl".data, "building".data, "no.".data,
   "no".data]

/-- Case-insensitive literal match of `kw` (stored lower-case) at the head
of `s`. -/
def isPrefixCI (kw s : Str) : Bool :=
  toLowerS (s.take kw.length) = kw

/-- The first alternative of the keyword regex that matches at the head of
`s` (Python alternation is ordered, not longest-match). -/
def findKw (s : Str) : Option Str :=
  kwList.find? (fun kw => isPrefixCI kw s)

/-- Every regex alternative is a nonempty string. -/
theorem kwList_pos : ∀ kw ∈ kwList, 0 < kw.length := by decide

theorem findKw_mem {s : Str} {kw : Str} (h : findKw s = some kw) :
    kw ∈ kwList :=
  List.mem_of_find?_eq_some h

/-- `\b` holds just before a keyword alternative (whose first character is
always a word character) iff the preceding character — `none` at the start
of the string — is not a word character. -/
def boundaryOK (prev : Option Char) : Bool :=
  match prev with
  | none => true
  | some p => !pyIsWordChar p

/-- Step 2, `re.sub(keywordPattern, "", u, flags=re.IGNORECASE)`:
left-to-right scan of the string; at every position that is a word boundary
(tracked through `prev`, the character just before the scan position in the
original string) the ordered alternation is tried, a match is deleted and
the scan resumes after it; otherwise one character is kept.  A keyword
first character is always a word character, so testing `boundaryOK prev`
alone is exactly `\b`.  The recursion is driven by a fuel argument (every
step consumes at least one character, so `s.length` fuel is enough; with
fuel `0` the scanner returns its input unchanged). -/
def subKwF : Nat → Option Char → Str → Str
  | 0, _, s => s
  | _ + 1, _, [] => []
  | fuel + 1, prev, c :: rest =>
    if boundaryOK prev then
      match findKw (c :: rest) with
      | some kw =>
        subKwF fuel ((c :: rest).take kw.length).getLast?
          ((c :: rest).drop kw.length)
      | none => c :: subKwF fuel (some c) rest
    else c :: subKwF fuel (some c) rest

/-- The keyword-removal scan with adequate fuel. -/
def subKw (prev : Option Char) (s : Str) : Str := subKwF s.length prev s

theorem subKwF_fuel {f1 : Nat} : ∀ {f2 : Nat} {prev : Option Char} {s : Str},
    s.length ≤ f1 → s.length ≤ f2 → subKwF f1 prev s = subKwF f2 prev s := by
  induction f1 with
  | zero =>
    intro f2 prev s h1 _
    have hs : s = [] := List.eq_nil_of_length_eq_zero (Nat.le_zero.mp h1)
    cases f2 <;> simp [hs, subKwF]
  | succ f ih =>
    intro f2 prev s h1 h2
    cases s with
    | nil => cases f2 <;> simp [subKwF]
    | cons c rest =>
      cases f2 with
      | zero => simp at h2
      | succ g =>
        simp only [subKwF]
        by_cases hb : boundaryOK prev = true
        · rw [hb]
          simp only [if_true]
          cases hf : findKw (c :: rest) with
          | some kw =>
            have hkw : 0 < kw.length := kwList_pos kw (findKw_mem hf)
            simp only [List.length_cons] at h1 h2
            have hd : ((c :: rest).drop kw.length).length ≤ rest.length := by
              simp only [List.length_drop, List.length_cons]; omega
            exact ih (Nat.le_trans hd (Nat.lt_succ_iff.mp h1))
              (Nat.le_trans hd (Nat.lt_succ_iff.mp h2))
          | none =>
            simp only [List.length_cons] at h1 h2
            rw [ih (Nat.lt_succ_iff.mp h1) (Nat.lt_succ_iff.mp h2)]
        · rw [Bool.not_eq_true] at hb
          rw [hb]
          simp only [Bool.false_eq_true, if_false]
          simp only [List.length_cons] at h1 h2
          rw [ih (Nat.lt_succ_iff.mp h1) (Nat.lt_succ_iff.mp h2)]

theorem subKw_nil (prev : Option Char) : subKw prev [] = [] := rfl

theorem subKw_match {prev : Option Char} {c : Char} {rest kw : Str}
    (hb : boundaryOK prev = true) (hf : findKw (c :: rest) = some kw) :
    subKw prev (c :: rest) =
      subKw ((c :: rest).take kw.length).getLast?
        ((c :: rest).drop kw.length) := by
  have hkw : 0 < kw.length := kwList_pos kw (findKw_mem hf)
  simp only [subKw, List.length_cons, subKwF, hb, if_true, hf]
  exact subKwF_fuel (by simp [List.length_drop]; omega) (Nat.le_refl _)

theorem subKw_nomatch {prev : Option Char} {c : Char} {rest : Str}
    (hb : boundaryOK prev = true) (hf : findKw (c :: rest) = none) :
    subKw prev (c :: rest) = c :: subKw (some c) rest := by
  simp only [subKw, List.length_cons, subKwF, hb, if_true, hf]

theorem subKw_nb {prev : Option Char} {c : Char} {rest : Str}
    (hb : boundaryOK prev = false) :
    subKw prev (c :: rest) = c :: subKw (some c) rest := by
  simp only [subKw, List.length_cons, subKwF, hb, Bool.false_eq_true, if_false]

/-- Step 3, `re.sub(r"[-.\s]+", "", u)`: delete every hyphen, period and
whitespace character. -/
def removePunct (s : Str) : Str :=
  s.filter (fun c => !(c = '-' || c = '.' || pyIsSpace c))

/-- The effect of step 4's pattern `\b0+(\w+)` → `\1` on one maximal run of
word characters: the `\b` can only hold at the start of the run, `0+` is
the leading zeros and the greedy `\w+` swallows the rest of the run, so the
leading zeros are deleted; when the run is all zeros the greedy `0+`
backtracks once and the run collapses to a single "0"; a run not starting
with `0`, or equal to "0" itself (too short for `0+\w+`), is unchanged. -/
def zdrop (t : Str) : Str :=
  match t with
  | [] => []
  | c :: _ =>
    if c = '0' then
      let t' := t.dropWhile (fun d => d = '0')
      if t' = [] then ['0'] else t'
    else t

theorem length_dropWhile_le (p : Char → Bool) (l : Str) :
    (l.dropWhile p).length ≤ l.length := by
  induction l with
  | nil => simp [List.dropWhile]
  | cons c r ih =>
    by_cases h : p c = true <;> simp [List.dropWhile_cons, h] <;> omega

/-- Apply `f` to each maximal run of word characters of `s`, keeping the
non-word characters in place.  (In the word-character branch the run
`c :: rest.takeWhile pyIsWordChar` is the `takeWhile` of the whole list and
the recursion continues on its `dropWhile`.)  Fuel-driven like `subKwF`. -/
def mapWordRunsF : Nat → (Str → Str) → Str → Str
  | 0, _, s => s
  | _ + 1, _, [] => []
  | fuel + 1, f, c :: rest =>
    if pyIsWordChar c then
      f (c :: rest.takeWhile pyIsWordChar)
        ++ mapWordRunsF fuel f (rest.dropWhile pyIsWordChar)
    else c :: mapWordRunsF fuel f rest

/-- The word-run transformer with adequate fuel. -/
def mapWordRuns (f : Str → Str) (s : Str) : Str := mapWordRunsF s.length f s

theorem mapWordRunsF_fuel {f : Str → Str} {f1 : Nat} :
    ∀ {f2 : Nat} {s : Str}, s.length ≤ f1 → s.length ≤ f2 →
      mapWordRunsF f1 f s = mapWordRunsF f2 f s := by
  induction f1 with
  | zero =>
    intro f2 s h1 _
    have hs : s = [] := List.eq_nil_of_length_eq_zero (Nat.le_zero.mp h1)
    cases f2 <;> simp [hs, mapWordRunsF]
  | succ n ih =>
    intro f2 s h1 h2
    cases s with
    | nil => cases f2 <;> simp [mapWordRunsF]
    | cons c rest =>
      cases f2 with
      | zero => simp at h2
      | succ g =>
        simp only [mapWordRunsF]
        simp only [List.length_cons] at h1 h2
        by_cases hw : pyIsWordChar c = true
        · rw [hw]
          simp only [if_true]
          have hd := length_dropWhile_le pyIsWordChar rest
          rw [ih (Nat.le_trans hd (Nat.lt_succ_iff.mp h1))
            (Nat.le_trans hd (Nat.lt_succ_iff.mp h2))]
        · rw [Bool.not_eq_true] at hw
          rw [hw]
          simp only [Bool.false_eq_true, if_false]
          rw [ih (Nat.lt_succ_iff.mp h1) (Nat.lt_succ_iff.mp h2)]

theorem mapWordRuns_nil (f : Str → Str) : mapWordRuns f [] = [] := rfl

theorem mapWordRuns_word {f : Str → Str} {c : Char} {rest : Str}
    (hw : pyIsWordChar c = true) :
    mapWordRuns f (c :: rest) =
      f (c :: rest.takeWhile pyIsWordChar)
        ++ mapWordRuns f (rest.dropWhile pyIsWordChar) := by
  simp only [mapWordRuns, List.length_cons, mapWordRunsF, hw, if_true]
  rw [mapWordRunsF_fuel (length_dropWhile_le pyIsWordChar rest) (Nat.le_refl _)]

theorem mapWordRuns_nonword {f : Str → Str} {c : Char} {rest : Str}
    (hw : pyIsWordChar c = false) :
    mapWordRuns f (c :: rest) = c :: mapWordRuns f rest := by
  simp only [mapWordRuns, List.length_cons, mapWordRunsF, hw,
    Bool.false_eq_true, if_false]

/-- Step 4, `re.sub(r"\b0+(\w+)", r"\1", u)`: per word run, drop leading
zeros (see `zdrop`). -/
def subZeros (s : Str) : Str := mapWordRuns zdrop s

/-- `ValidationService._get_filtered_unit_number`: the five-step pipeline —
strip leading `#`/`-` marks, delete keywords at word boundaries, delete
hyphens/periods/whitespace, drop leading zeros per word run, uppercase. -/
def get_filtered_unit_number (s : Str) : Str :=
  toUpperS (subZeros (removePunct (subKw none (stripLeadingMarks s))))

/-! ### Text helpers of the strata path -/

/-- `ValidationService._get_text_after_hyphen`: the text after the first
hyphen, stripped; the whole line if it contains no hyphen. -/
def get_text_after_hyphen (address_line : Str) : Str :=
  if '-' ∈ address_line then
    pyStrip ((address_line.dropWhile (fun c => c ≠ '-')).drop 1)
  else address_line

/-- `ValidationService._extract_street_number`: strip, then the first
space-delimited token (`.strip().split(" ")[0]`). -/
def extract_street_number (address : Str) : Str :=
  firstSpaceToken (pyStrip address)

/-! ### Data model

`RegistrationStatus`, `RegistrationType` and `ErrorMessage` live in
`strr_api/enums/enum.py`, which is not part of the excerpt; the members
used here are modelled from the spec: an `ACTIVE` status (with the other
inactive statuses represented abstractly), the `HOST` versus
`STRATA_HOTEL` versus platform registration types, and the error codes the
matcher emits. -/

/-- Modelled from the spec: `RegistrationStatus`, with `ACTIVE` the only
status that lets the matcher run; the remaining members stand for the
inactive statuses (expiry, suspension, cancellation). -/
inductive RegStatus where
  | ACTIVE | EXPIRED | SUSPENDED | CANCELLED
deriving DecidableEq, Repr

/-- `registration.status.name`. -/
def RegStatus.pyName : RegStatus → Str
  | .ACTIVE => "ACTIVE".data
  | .EXPIRED => "EXPIRED".data
  | .SUSPENDED => "SUSPENDED".data
  | .CANCELLED => "CANCELLED".data

/-- Modelled from the spec: `RegistrationType` values compared against
`registration.registration_type`; `PLATFORM` stands for any type other
than host and strata hotel. -/
inductive RegType where
  | HOST | STRATA_HOTEL | PLATFORM
deriving DecidableEq, Repr

/-- The `ErrorMessage` codes emitted by the validation service;
`SCHEMA_ERROR` stands for an arbitrary payload produced by the external
schema validator. -/
inductive ErrorCode where
  | STREET_NUMBER_MISMATCH
  | POSTAL_CODE_MISMATCH
  | UNIT_NUMBER_MISMATCH
  | ADDRESS_MISMATCH
  | PERMIT_NOT_FOUND
  | SCHEMA_ERROR (n : Nat)
deriving DecidableEq, Repr

/-- The exceptions Python raises on a `None` where a string is expected:
`None.replace(...)`/`None.get(...)` raise `AttributeError`, `"-" in None`
raises `TypeError`. -/
inductive PyExc where
  | attributeError | typeError
deriving DecidableEq, Repr

/-- The `address` object of the validation request.  A `none` field is an
absent key: `streetNumber` is read through `str(...)`, `unitNumber`
defaults to `None`, `postalCode` defaults to `""`. -/
structure ReqAddress where
  streetNumber : Option Str
  unitNumber : Option Str
  postalCode : Option Str
deriving DecidableEq, Repr

/-- The validation request JSON (`request_json`). -/
structure Request where
  identifier : Option Str
  address : Option ReqAddress
deriving DecidableEq, Repr

/-- `registration.rental_property.address` of a host registration.  Each
field may be `NULL` in the database (`None`). -/
structure HostAddress where
  street_number : Option Str
  unit_number : Option Str
  postal_code : Option Str
deriving DecidableEq, Repr

/-- A strata-hotel candidate address: the primary
`strata_hotel.location` or a `building.address`. -/
structure StrataLocation where
  street_address : Option Str
  postal_code : Option Str
deriving DecidableEq, Repr

/-- The registration entity, flattened to the fields the validation
service reads.  `expiry_formatted` is the already-formatted
`DateUtil.as_legislation_timezone(expiry_date).strftime("%Y-%m-%d")`
string (date rendering is an external collaborator). -/
structure Registration where
  status : RegStatus
  registration_type : RegType
  rental_property_address : HostAddress
  strata_location : StrataLocation
  strata_buildings : List StrataLocation
  expiry_formatted : Str
deriving DecidableEq, Repr

/-- The response dictionary.  `base` is the deep copy of the request the
response was initialised from (`none` when it was initialised from the
empty dict `{}`); `errors`, `status` and `validUntil` are the keys the
service may add. -/
structure Response where
  base : Option Request
  errors : Option (List ErrorCode)
  status : Option Str
  validUntil : Option Str
deriving DecidableEq, Repr

/-- The row written by `create_real_time_validation_audit_record`. -/
structure AuditRecord where
  request_json : Request
  response_json : Response
  status_code : Nat
deriving DecidableEq, Repr

/-- The error list of a response (`[]` when the `errors` key is absent). -/
def errListOf (r : Response) : List ErrorCode := r.errors.getD []

/-- The dictionary `{"status": s}` and nothing else. -/
def statusOnlyResponse (s : Str) : Response :=
  { base := none, errors := none, status := some s, validUntil := none }

/-- Does the response dictionary hold any key besides `status`?  (`base`
contributes the keys of the echoed request dictionary.) -/
def Response.hasNonStatusKey (r : Response) : Bool :=
  r.errors.isSome || r.validUntil.isSome ||
    (match r.base with
     | some q => q.identifier.isSome || q.address.isSome
     | none => false)

/-! ### The permit matcher `check_permit_details` -/

/-- Host street-number check (lines 95–109): the permit street number is
only compared when it is truthy, lower-cased and stripped, against the
request street number (`str(...).lower().strip()`) or its first
space-delimited token. -/
def hostStreetErrs (a : ReqAddress) (pa : HostAddress) : List ErrorCode :=
  let rsn := pyStrip (toLowerS (pyStr a.streetNumber))
  let rsnSub := firstSpaceToken rsn
  match pa.street_number with
  | none => []
  | some p =>
    if p ≠ [] ∧ pyStrip (toLowerS p) ≠ rsn ∧ pyStrip (toLowerS p) ≠ rsnSub
    then [ErrorCode.STREET_NUMBER_MISMATCH] else []

/-- Host postal-code check (lines 111–120), given the permit postal code
already known to be present: spaces stripped and case-folded on both
sides; accepted on exact equality or, when the request code has at least 4
characters, on equality of the first 4 characters. -/
def hostPostalErrs (a : ReqAddress) (ppc : Str) : List ErrorCode :=
  let rq := toLowerS (removeSpaces (a.postalCode.getD []))
  let pp := toLowerS (removeSpaces ppc)
  if rq = pp ∨ (4 ≤ rq.length ∧ rq.take 4 = pp.take 4) then []
  else [ErrorCode.POSTAL_CODE_MISMATCH]

/-- Host unit-number check (lines 122–143): Python truthiness on both
sides (`None` and `""` count as absent); when both are present the
normalized forms are compared. -/
def hostUnitErrs (a : ReqAddress) (pa : HostAddress) : List ErrorCode :=
  let bad :=
    if pyTruthy a.unitNumber then
      if pyTruthy pa.unit_number then
        get_filtered_unit_number (a.unitNumber.getD [])
          ≠ get_filtered_unit_number (pa.unit_number.getD [])
      else True
    else (pyTruthy pa.unit_number = true)
  if bad then [ErrorCode.UNIT_NUMBER_MISMATCH] else []

/-- The host-path error list, in emission order, once the permit postal
code `ppc` has been successfully read. -/
def hostErrList (a : ReqAddress) (pa : HostAddress) (ppc : Str) :
    List ErrorCode :=
  hostStreetErrs a pa ++ hostPostalErrs a ppc ++ hostUnitErrs a pa

/-- The host path (lines 94–143).  The street check runs first and cannot
raise; reading `registration.rental_property.address.postal_code.replace`
raises `AttributeError` when the column is `NULL`. -/
def hostErrors (a : ReqAddress) (pa : HostAddress) :
    Except PyExc (List ErrorCode) :=
  match pa.postal_code with
  | none => .error .attributeError
  | some ppc => .ok (hostErrList a pa ppc)

/-- A strata candidate's own street number (line 152/163):
`_extract_street_number(_get_text_after_hyphen(street_address))`. -/
def candStreetNumber (sa : Str) : Str :=
  extract_street_number (get_text_after_hyphen sa)

/-- `postal.replace(" ", "").lower()[:4]` — the strata postal comparison
key; note there is no minimum-length requirement. -/
def postal4 (s : Str) : Str := (toLowerS (removeSpaces s)).take 4

/-- The strata request street number (line 150):
`str(address_json.get("streetNumber")).strip()` — not lower-cased, unlike
the host path. -/
def strataReqStreet (a : ReqAddress) : Str := pyStrip (pyStr a.streetNumber)

/-- Its first space-delimited token (line 151). -/
def strataReqStreetSub (a : ReqAddress) : Str :=
  firstSpaceToken (strataReqStreet a)

/-- `address_json.get("postalCode", "")`. -/
def reqPostal (a : ReqAddress) : Str := a.postalCode.getD []

/-- Does a strata candidate with present fields match the request (lines
154–157/165–168)?  Street number equal to the request street number or its
first token, and equal 4-character postal keys. -/
def candMatch (rsn rsnSub reqP : Str) (sa pc : Str) : Bool :=
  (candStreetNumber sa = rsn ∨ candStreetNumber sa = rsnSub)
    ∧ postal4 reqP = postal4 pc

/-- The building loop (lines 161–170): first match wins and stops the
loop; a street-number match with a postal mismatch moves on to the next
building.  `"-" in None` raises `TypeError`; `None.replace` (postal,
reached only on a street match) raises `AttributeError`. -/
def strataLoop (rsn rsnSub reqP : Str) :
    List StrataLocation → Except PyExc Bool
  | [] => .ok false
  | b :: rest =>
    match b.street_address with
    | none => .error .typeError
    | some sa =>
      if candStreetNumber sa = rsn ∨ candStreetNumber sa = rsnSub then
        match b.postal_code with
        | none => .error .attributeError
        | some pc =>
          if postal4 reqP = postal4 pc then .ok true
          else strataLoop rsn rsnSub reqP rest
      else strataLoop rsn rsnSub reqP rest

/-- The strata path (lines 145–178): the primary location is checked
first (its postal code is only read when its street number matches), then
the buildings in sequence; when nothing matches, the single
`ADDRESS_MISMATCH` error is emitted. -/
def strataErrors (a : ReqAddress) (loc : StrataLocation)
    (bs : List StrataLocation) : Except PyExc (List ErrorCode) :=
  let rsn := strataReqStreet a
  let rsnSub := strataReqStreetSub a
  let reqP := reqPostal a
  match loc.street_address with
  | none => .error .typeError
  | some sa =>
    let primaryE : Except PyExc Bool :=
      if candStreetNumber sa = rsn ∨ candStreetNumber sa = rsnSub then
        match loc.postal_code with
        | none => .error .attributeError
        | some pc => .ok (postal4 reqP = postal4 pc : Bool)
      else .ok false
    match primaryE with
    | .error e => .error e
    | .ok true => .ok []
    | .ok false =>
      match strataLoop rsn rsnSub reqP bs with
      | .error e => .error e
      | .ok true => .ok []
      | .ok false => .ok [ErrorCode.ADDRESS_MISMATCH]

/-- Lines 92–178: dispatch on the registration type.  Reading a field of
an absent `address` object (`None.get`) raises `AttributeError`; a
registration of any other type runs no check and collects no error. -/
def computeErrors (req : Request) (reg : Registration) :
    Except PyExc (List ErrorCode) :=
  match reg.registration_type with
  | .HOST =>
    match req.address with
    | none => .error .attributeError
    | some a => hostErrors a reg.rental_property_address
  | .STRATA_HOTEL =>
    match req.address with
    | none => .error .attributeError
    | some a => strataErrors a reg.strata_location reg.strata_buildings
  | .PLATFORM => .ok []

/-- The success payload (lines 183–185): the echoed request plus
`status` and `validUntil`. -/
def successResponse (req : Request) (reg : Registration) : Response :=
  { base := some req, errors := none, status := some reg.status.pyName,
    validUntil := some reg.expiry_formatted }

/-- The failure payload (lines 180–182): the echoed request plus
`errors`. -/
def failureResponse (req : Request) (errs : List ErrorCode) : Response :=
  { base := some req, errors := some errs, status := none,
    validUntil := none }

/-- The inactive-permit payload (lines 88–90): the echoed request plus
`status` only. -/
def inactiveResponse (req : Request) (reg : Registration) : Response :=
  { base := some req, errors := none, status := some reg.status.pyName,
    validUntil := none }

/-- `ValidationService.check_permit_details` (lines 83–186).  The response
starts as a deep copy of the request; a non-active registration returns
`{**request, "status": name}` with HTTP 200 before any check; otherwise
the collected errors produce HTTP 400, or the success payload with the
formatted expiry date produces HTTP 200. -/
def check_permit_details (req : Request) (reg : Registration) :
    Except PyExc (Response × Nat) :=
  if reg.status ≠ RegStatus.ACTIVE then
    .ok (inactiveResponse req reg, 200)
  else
    match computeErrors req reg with
    | .error e => .error e
    | .ok [] => .ok (successResponse req reg, 200)
    | .ok errs => .ok (failureResponse req errs, 400)

/-- `ValidationService.validate_permit` (lines 55–81).  The external
collaborators are parameters: `schemaValid`/`schemaErrors` is the result
of `validate(request_json, "real_time_validation")` and `lookup` the
result of `RegistrationService.find_by_registration_number`.  The returned
list holds the audit records written by
`create_real_time_validation_audit_record`; when `check_permit_details`
raises, the audit line (line 79) is never reached. -/
def validate_permit (req : Request) (schemaValid : Bool)
    (schemaErrors : List ErrorCode) (lookup : Option Registration) :
    Except PyExc (Response × Nat × List AuditRecord) :=
  if ¬schemaValid then
    let resp : Response :=
      { base := none, errors := some schemaErrors, status := none,
        validUntil := none }
    .ok (resp, 400, [⟨req, resp, 400⟩])
  else
    match lookup with
    | some reg =>
      match check_permit_details req reg with
      | .error e => .error e
      | .ok (resp, code) => .ok (resp, code, [⟨req, resp, code⟩])
    | none =>
      let resp : Response :=
        { base := none, errors := some [ErrorCode.PERMIT_NOT_FOUND],
          status := none, validUntil := none }
      .ok (resp, 404, [⟨req, resp, 404⟩])

instance {e a : Type} [DecidableEq e] [DecidableEq a] :
    DecidableEq (Except e a) := fun x y =>
  match x, y with
  | .ok v, .ok w =>
    if h : v = w then isTrue (by rw [h])
    else isFalse (by intro hc; injection hc; contradiction)
  | .error v, .error w =>
    if h : v = w then isTrue (by rw [h])
    else isFalse (by intro hc; injection hc; contradiction)
  | .ok _, .error _ => isFalse (by intro hc; injection hc)
  | .error _, .ok _ => isFalse (by intro hc; injection hc)

/-! ### Concrete sample data (used by witnesses and counterexamples) -/

/-- A request with both identifier and address keys. -/
def sReq : Request :=
  { identifier := some "H12345".data,
    address := some { streetNumber := some "123".data,
                      unitNumber := some "Suite 5".data,
                      postalCode := some "V8V 1V1".data } }

/-- The address object of `sReq`. -/
def sAddr : ReqAddress :=
  { streetNumber := some "123".data, unitNumber := some "Suite 5".data,
    postalCode := some "V8V 1V1".data }

/-- An active host registration whose permit unit number is "Unit 4". -/
def sRegHost : Registration :=
  { status := RegStatus.ACTIVE, registration_type := RegType.HOST,
    rental_property_address :=
      { street_number := some "123".data, unit_number := some "Unit 4".data,
        postal_code := some "V8V 1V1".data },
    strata_location := { street_address := none, postal_code := none },
    strata_buildings := [],
    expiry_formatted := "2026-12-31".data }

/-- The same registration, expired. -/
def sRegExpired : Registration :=
  { sRegHost with status := RegStatus.EXPIRED }


/-! ### Host-path characterization lemmas -/

theorem host_computeErrors {req : Request} {reg : Registration}
    {a : ReqAddress} {ppc : Str}
    (ha : req.address = some a) (hty : reg.registration_type = RegType.HOST)
    (hpc : reg.rental_property_address.postal_code = some ppc) :
    computeErrors req reg =
      .ok (hostErrList a reg.rental_property_address ppc) := by
  simp [computeErrors, hty, ha, hostErrors, hpc]

theorem check_resp_of_errs {req : Request} {reg : Registration}
    {L : List ErrorCode}
    (hact : reg.status = RegStatus.ACTIVE)
    (hC : computeErrors req reg = .ok L) :
    check_permit_details req reg =
      if L = [] then .ok (successResponse req reg, 200)
      else .ok (failureResponse req L, 400) := by
  cases L with
  | nil => simp [check_permit_details, hact, hC]
  | cons x xs => simp [check_permit_details, hact, hC]

theorem errListOf_of_check {req : Request} {reg : Registration}
    {L : List ErrorCode} {resp : Response} {code : Nat}
    (hact : reg.status = RegStatus.ACTIVE)
    (hC : computeErrors req reg = .ok L)
    (hok : check_permit_details req reg = .ok (resp, code)) :
    errListOf resp = L := by
  rw [check_resp_of_errs hact hC] at hok
  by_cases hL : L = []
  · simp [hL] at hok
    simp [← hok.1, successResponse, errListOf, hL]
  · simp [hL] at hok
    simp [← hok.1, failureResponse, errListOf]

theorem mem_hostStreetErrs {a : ReqAddress} {pa : HostAddress}
    {e : ErrorCode} (h : e ∈ hostStreetErrs a pa) :
    e = ErrorCode.STREET_NUMBER_MISMATCH := by
  simp only [hostStreetErrs] at h
  cases hs : pa.street_number with
  | none => rw [hs] at h; simp at h
  | some p => rw [hs] at h; split at h <;> simp_all

theorem mem_hostPostalErrs {a : ReqAddress} {ppc : Str}
    {e : ErrorCode} (h : e ∈ hostPostalErrs a ppc) :
    e = ErrorCode.POSTAL_CODE_MISMATCH := by
  simp only [hostPostalErrs] at h
  split at h <;> simp_all

theorem mem_hostUnitErrs {a : ReqAddress} {pa : HostAddress}
    {e : ErrorCode} (h : e ∈ hostUnitErrs a pa) :
    e = ErrorCode.UNIT_NUMBER_MISMATCH := by
  simp only [hostUnitErrs] at h
  split at h <;> simp_all

theorem unit_mem_hostErrList {a : ReqAddress} {pa : HostAddress} {ppc : Str} :
    ErrorCode.UNIT_NUMBER_MISMATCH ∈ hostErrList a pa ppc ↔
      ErrorCode.UNIT_NUMBER_MISMATCH ∈ hostUnitErrs a pa := by
  simp only [hostErrList, List.mem_append]
  constructor
  · rintro ((h | h) | h)
    · exact absurd (mem_hostStreetErrs h) (by decide)
    · exact absurd (mem_hostPostalErrs h) (by decide)
    · exact h
  · intro h; exact Or.inr h

theorem postal_mem_hostErrList {a : ReqAddress} {pa : HostAddress}
    {ppc : Str} :
    ErrorCode.POSTAL_CODE_MISMATCH ∈ hostErrList a pa ppc ↔
      ErrorCode.POSTAL_CODE_MISMATCH ∈ hostPostalErrs a ppc := by
  simp only [hostErrList, List.mem_append]
  constructor
  · rintro ((h | h) | h)
    · exact absurd (mem_hostStreetErrs h) (by decide)
    · exact h
    · exact absurd (mem_hostUnitErrs h) (by decide)
  · intro h; exact Or.inl (Or.inr h)

/-- C1: for every host registration with an active status (request address
and permit postal code present, so that the check completes), the returned
error list contains `UNIT_NUMBER_MISMATCH` exactly when: both sides have a
(truthy) unit number and the forms normalized by the Address Normalizer
differ, or exactly one side has a unit number; when neither has one, no
unit-number error is emitted. -/
theorem C1_host_unit_number_four_cases (req : Request) (reg : Registration)
    (a : ReqAddress) (ppc : Str) (resp : Response) (code : Nat)
    (ha : req.address = some a)
    (hact : reg.status = RegStatus.ACTIVE)
    (hty : reg.registration_type = RegType.HOST)
    (hpc : reg.rental_property_address.postal_code = some ppc)
    (hok : check_permit_details req reg = .ok (resp, code)) :
    ErrorCode.UNIT_NUMBER_MISMATCH ∈ errListOf resp ↔
      ((pyTruthy a.unitNumber = true
          ∧ pyTruthy reg.rental_property_address.unit_number = true
          ∧ get_filtered_unit_number (a.unitNumber.getD [])
              ≠ get_filtered_unit_number
                  (reg.rental_property_address.unit_number.getD []))
        ∨ (pyTruthy a.unitNumber = true
            ∧ ¬ pyTruthy reg.rental_property_address.unit_number = true)
        ∨ (¬ pyTruthy a.unitNumber = true
            ∧ pyTruthy reg.rental_property_address.unit_number = true)) := by
  have hE := errListOf_of_check hact (host_computeErrors ha hty hpc) hok
  rw [hE, unit_mem_hostErrList]
  simp only [hostUnitErrs]
  by_cases h1 : pyTruthy a.unitNumber = true
  · by_cases h2 : pyTruthy reg.rental_property_address.unit_number = true
    · by_cases h3 : get_filtered_unit_number (a.unitNumber.getD [])
          = get_filtered_unit_number
              (reg.rental_property_address.unit_number.getD []) <;>
        simp [h1, h2, h3]
    · simp [h1, h2]
  · by_cases h2 : pyTruthy reg.rental_property_address.unit_number = true <;>
      simp [h1, h2]

theorem C1_witness :
    ErrorCode.UNIT_NUMBER_MISMATCH ∈
        errListOf (failureResponse sReq [ErrorCode.UNIT_NUMBER_MISMATCH]) ↔
      ((pyTruthy sAddr.unitNumber = true
          ∧ pyTruthy sRegHost.rental_property_address.unit_number = true
          ∧ get_filtered_unit_number (sAddr.unitNumber.getD [])
              ≠ get_filtered_unit_number
                  (sRegHost.rental_property_address.unit_number.getD []))
        ∨ (pyTruthy sAddr.unitNumber = true
            ∧ ¬ pyTruthy sRegHost.rental_property_address.unit_number = true)
        ∨ (¬ pyTruthy sAddr.unitNumber = true
            ∧ pyTruthy sRegHost.rental_property_address.unit_number = true)) :=
  C1_host_unit_number_four_cases sReq sRegHost sAddr
    "V8V 1V1".data (failureResponse sReq [ErrorCode.UNIT_NUMBER_MISMATCH])
    400 (by decide) (by decide) (by decide) (by decide) (by decide)

/-- C5: for every active host registration (request address and permit
postal code present), no `POSTAL_CODE_MISMATCH` is emitted iff, after
stripping spaces and case-folding both codes, the claim's code equals the
permit's exactly, or the claim's code has at least 4 characters and the
first 4 characters agree. -/
theorem C5_host_postal_code_check (req : Request) (reg : Registration)
    (a : ReqAddress) (ppc : Str) (resp : Response) (code : Nat)
    (ha : req.address = some a)
    (hact : reg.status = RegStatus.ACTIVE)
    (hty : reg.registration_type = RegType.HOST)
    (hpc : reg.rental_property_address.postal_code = some ppc)
    (hok : check_permit_details req reg = .ok (resp, code)) :
    ErrorCode.POSTAL_CODE_MISMATCH ∉ errListOf resp ↔
      (toLowerS (removeSpaces (a.postalCode.getD []))
          = toLowerS (removeSpaces ppc)
        ∨ (4 ≤ (toLowerS (removeSpaces (a.postalCode.getD []))).length
            ∧ (toLowerS (removeSpaces (a.postalCode.getD []))).take 4
              = (toLowerS (removeSpaces ppc)).take 4)) := by
  have hE := errListOf_of_check hact (host_computeErrors ha hty hpc) hok
  rw [hE]
  rw [not_iff_comm]
  rw [postal_mem_hostErrList]
  simp only [hostPostalErrs]
  by_cases hc : (toLowerS (removeSpaces (a.postalCode.getD []))
      = toLowerS (removeSpaces ppc)
    ∨ (4 ≤ (toLowerS (removeSpaces (a.postalCode.getD []))).length
        ∧ (toLowerS (removeSpaces (a.postalCode.getD []))).take 4
          = (toLowerS (removeSpaces ppc)).take 4)) <;> simp [hc]

theorem C5_witness :
    ErrorCode.POSTAL_CODE_MISMATCH ∉
        errListOf (failureResponse sReq [ErrorCode.UNIT_NUMBER_MISMATCH]) ↔
      (toLowerS (removeSpaces (sAddr.postalCode.getD []))
          = toLowerS (removeSpaces "V8V 1V1".data)
        ∨ (4 ≤ (toLowerS (removeSpaces (sAddr.postalCode.getD []))).length
            ∧ (toLowerS (removeSpaces (sAddr.postalCode.getD []))).take 4
              = (toLowerS (removeSpaces "V8V 1V1".data)).take 4)) :=
  C5_host_postal_code_check sReq sRegHost sAddr "V8V 1V1".data
    (failureResponse sReq [ErrorCode.UNIT_NUMBER_MISMATCH]) 400
    (by decide) (by decide) (by decide) (by decide) (by decide)

/-- C9: for every active host registration, two present (truthy) unit
numbers that both normalize to the empty string are considered equal — no
`UNIT_NUMBER_MISMATCH` even though the raw texts may differ — and a unit
number equal to the empty string is falsy, falling into the
no-unit-number cases. -/
theorem C9_empty_normal_forms (req : Request) (reg : Registration)
    (a : ReqAddress) (ppc : Str) (resp : Response) (code : Nat)
    (ha : req.address = some a)
    (hact : reg.status = RegStatus.ACTIVE)
    (hty : reg.registration_type = RegType.HOST)
    (hpc : reg.rental_property_address.postal_code = some ppc)
    (hok : check_permit_details req reg = .ok (resp, code)) :
    (∀ u v, a.unitNumber = some u →
      reg.rental_property_address.unit_number = some v →
      u ≠ [] → v ≠ [] →
      get_filtered_unit_number u = [] → get_filtered_unit_number v = [] →
      ErrorCode.UNIT_NUMBER_MISMATCH ∉ errListOf resp)
    ∧ (a.unitNumber = some [] →
        (ErrorCode.UNIT_NUMBER_MISMATCH ∈ errListOf resp ↔
          pyTruthy reg.rental_property_address.unit_number = true)) := by
  have hE := errListOf_of_check hact (host_computeErrors ha hty hpc) hok
  constructor
  · intro u v hu hv hu0 hv0 hnu hnv
    rw [hE, unit_mem_hostErrList]
    have h1 : pyTruthy (some u) = true := by simp [pyTruthy, hu0]
    have h2 : pyTruthy (some v) = true := by simp [pyTruthy, hv0]
    simp [hostUnitErrs, h1, h2, hu, hv, hnu, hnv]
  · intro h0
    rw [hE, unit_mem_hostErrList]
    have h1 : pyTruthy a.unitNumber = false := by simp [pyTruthy, h0]
    by_cases h2 : pyTruthy reg.rental_property_address.unit_number = true <;>
      simp [hostUnitErrs, h1, h2]

/-- An active host registration with unit numbers "Suite" (claim) and
"Room" (permit): both normalize to the empty string. -/
def sRegHostKw : Registration :=
  { sRegHost with rental_property_address :=
      { street_number := some "123".data, unit_number := some "Room".data,
        postal_code := some "V8V 1V1".data } }

/-- The corresponding request, claiming unit "Suite". -/
def sReqKw : Request :=
  { identifier := some "H12345".data,
    address := some { streetNumber := some "123".data,
                      unitNumber := some "Suite".data,
                      postalCode := some "V8V 1V1".data } }

theorem C9_witness :
    (∀ u v,
        (sReqKw.address.getD ⟨none, none, none⟩).unitNumber = some u →
        sRegHostKw.rental_property_address.unit_number = some v →
        u ≠ [] → v ≠ [] →
        get_filtered_unit_number u = [] → get_filtered_unit_number v = [] →
        ErrorCode.UNIT_NUMBER_MISMATCH ∉
          errListOf (successResponse sReqKw sRegHostKw))
    ∧ ((sReqKw.address.getD ⟨none, none, none⟩).unitNumber = some [] →
        (ErrorCode.UNIT_NUMBER_MISMATCH ∈
            errListOf (successResponse sReqKw sRegHostKw) ↔
          pyTruthy sRegHostKw.rental_property_address.unit_number = true)) :=
  C9_empty_normal_forms sReqKw sRegHostKw
    (sReqKw.address.getD ⟨none, none, none⟩) "V8V 1V1".data
    (successResponse sReqKw sRegHostKw) 200
    (by decide) (by decide) (by decide) (by decide) (by decide)

/-- C6 counterexample: for the expired registration `sRegExpired` and the
request `sReq` (which has `identifier` and `address` keys), the returned
response is the echoed request plus `status`, so it holds keys other than
`status` and is not the dictionary `{"status": ...}` alone, contradicting
"a response that contains only {status: <that status>}". -/
theorem C6_counterexample :
    check_permit_details sReq sRegExpired =
        .ok (inactiveResponse sReq sRegExpired, 200)
      ∧ (inactiveResponse sReq sRegExpired).hasNonStatusKey = true
      ∧ inactiveResponse sReq sRegExpired ≠
          statusOnlyResponse RegStatus.EXPIRED.pyName := by
  refine ⟨by decide, by decide, by decide⟩

/-- C6 (amended): for every registration whose status is not ACTIVE,
`check_permit_details` returns HTTP 200 with the request echoed back plus
a `status` key holding that status's name — no error key, no address
check, and no `validUntil` key. -/
theorem C6_inactive_short_circuit (req : Request) (reg : Registration)
    (h : reg.status ≠ RegStatus.ACTIVE) :
    check_permit_details req reg =
      .ok ({ base := some req, errors := none,
             status := some reg.status.pyName, validUntil := none }, 200) := by
  simp [check_permit_details, h, inactiveResponse]

theorem C6_witness :
    check_permit_details sReq sRegExpired =
      .ok ({ base := some sReq, errors := none,
             status := some sRegExpired.status.pyName,
             validUntil := none }, 200) :=
  C6_inactive_short_circuit sReq sRegExpired (by decide)

/-- C7: whenever `validate_permit` completes (schema failure, permit not
found, mismatch, inactive permit or success), it produces exactly one
audit record, holding the exact request, the exact response returned to
the caller and the returned status code. -/
theorem C7_audit_invariant (req : Request) (schemaValid : Bool)
    (schemaErrors : List ErrorCode) (lookup : Option Registration)
    (resp : Response) (code : Nat) (audits : List AuditRecord)
    (h : validate_permit req schemaValid schemaErrors lookup =
      .ok (resp, code, audits)) :
    audits = [{ request_json := req, response_json := resp,
                status_code := code }] := by
  unfold validate_permit at h
  split at h
  · obtain ⟨h1, h2, h3⟩ := by
      simpa only [Except.ok.injEq, Prod.mk.injEq] using h
    rw [← h1, ← h2, ← h3]
  · split at h
    · split at h
      · simp at h
      · obtain ⟨h1, h2, h3⟩ := by
          simpa only [Except.ok.injEq, Prod.mk.injEq] using h
        rw [← h1, ← h2, ← h3]
    · obtain ⟨h1, h2, h3⟩ := by
        simpa only [Except.ok.injEq, Prod.mk.injEq] using h
      rw [← h1, ← h2, ← h3]

theorem C7_witness :
    ([{ request_json := sReq,
        response_json := failureResponse sReq [ErrorCode.UNIT_NUMBER_MISMATCH],
        status_code := 400 }] : List AuditRecord) =
      [{ request_json := sReq,
         response_json := failureResponse sReq [ErrorCode.UNIT_NUMBER_MISMATCH],
         status_code := 400 }] :=
  C7_audit_invariant sReq true [] (some sRegHost)
    (failureResponse sReq [ErrorCode.UNIT_NUMBER_MISMATCH]) 400
    [{ request_json := sReq,
       response_json := failureResponse sReq [ErrorCode.UNIT_NUMBER_MISMATCH],
       status_code := 400 }]
    (by decide)

/-! ### Strata-path characterization lemmas -/

theorem strataLoop_mapped (rsn rsnSub reqP : Str) (ps : List (Str × Str)) :
    strataLoop rsn rsnSub reqP
        (ps.map (fun p => ⟨some p.1, some p.2⟩)) =
      .ok (ps.any (fun p => candMatch rsn rsnSub reqP p.1 p.2)) := by
  induction ps with
  | nil => rfl
  | cons hd tl ih =>
    by_cases hs : (candStreetNumber hd.1 = rsn ∨ candStreetNumber hd.1 = rsnSub)
    · by_cases hp : postal4 reqP = postal4 hd.2
      · simp [strataLoop, hs, hp, candMatch]
      · simp [strataLoop, hs, hp, candMatch, ih]
    · simp [strataLoop, hs, candMatch, ih]

theorem strataLoop_first_match (rsn rsnSub reqP : Str)
    (ps1 : List (Str × Str)) (sa pc : Str) (bs2 : List StrataLocation)
    (h1 : ∀ p ∈ ps1, candMatch rsn rsnSub reqP p.1 p.2 = false)
    (hm : candMatch rsn rsnSub reqP sa pc = true) :
    strataLoop rsn rsnSub reqP
        (ps1.map (fun p => ⟨some p.1, some p.2⟩)
          ++ ⟨some sa, some pc⟩ :: bs2) =
      .ok true := by
  induction ps1 with
  | nil =>
    simp only [candMatch, decide_eq_true_eq] at hm
    simp [strataLoop, hm.1, hm.2]
  | cons hd tl ih =>
    have hhd := h1 hd (List.mem_cons_self hd tl)
    simp only [candMatch, decide_eq_false_iff_not, not_and] at hhd
    have htl : ∀ p ∈ tl, candMatch rsn rsnSub reqP p.1 p.2 = false :=
      fun p hp => h1 p (List.mem_cons_of_mem hd hp)
    by_cases hs : (candStreetNumber hd.1 = rsn ∨ candStreetNumber hd.1 = rsnSub)
    · by_cases hp : postal4 reqP = postal4 hd.2
      · exact absurd hp (hhd hs)
      · simp [strataLoop, hs, hp, ih htl]
    · simp [strataLoop, hs, ih htl]

theorem strataLoop_isOk (rsn rsnSub reqP : Str) (bs : List StrataLocation)
    (h : ∀ b ∈ bs, b.street_address.isSome = true
      ∧ b.postal_code.isSome = true) :
    ∃ r, strataLoop rsn rsnSub reqP bs = .ok r := by
  induction bs with
  | nil => exact ⟨false, rfl⟩
  | cons b tl ih =>
    obtain ⟨hsa, hpc⟩ := h b (List.mem_cons_self b tl)
    obtain ⟨sa, hsa⟩ := Option.isSome_iff_exists.mp hsa
    obtain ⟨pc, hpc⟩ := Option.isSome_iff_exists.mp hpc
    obtain ⟨r, hr⟩ := ih (fun x hx => h x (List.mem_cons_of_mem b hx))
    by_cases hs : (candStreetNumber sa = rsn ∨ candStreetNumber sa = rsnSub)
    · by_cases hp : postal4 reqP = postal4 pc
      · exact ⟨true, by simp [strataLoop, hsa, hpc, hs, hp]⟩
      · exact ⟨r, by simp [strataLoop, hsa, hpc, hs, hp, hr]⟩
    · exact ⟨r, by simp [strataLoop, hsa, hs, hr]⟩

theorem strataErrors_present {a : ReqAddress} {loc : StrataLocation}
    {lsa lpc : Str} {bs : List StrataLocation}
    (hsa : loc.street_address = some lsa)
    (hpc : loc.postal_code = some lpc) :
    strataErrors a loc bs =
      if candMatch (strataReqStreet a) (strataReqStreetSub a) (reqPostal a)
          lsa lpc = true then .ok []
      else
        match strataLoop (strataReqStreet a) (strataReqStreetSub a)
            (reqPostal a) bs with
        | .error e => .error e
        | .ok true => .ok []
        | .ok false => .ok [ErrorCode.ADDRESS_MISMATCH] := by
  by_cases hs : (candStreetNumber lsa = strataReqStreet a
      ∨ candStreetNumber lsa = strataReqStreetSub a)
  · by_cases hp : postal4 (reqPostal a) = postal4 lpc
    · simp [strataErrors, hsa, hpc, hs, hp, candMatch]
    · simp [strataErrors, hsa, hpc, hs, hp, candMatch]
  · simp [strataErrors, hsa, hs, candMatch]

theorem strata_computeErrors {req : Request} {reg : Registration}
    {a : ReqAddress}
    (ha : req.address = some a)
    (hty : reg.registration_type = RegType.STRATA_HOTEL) :
    computeErrors req reg =
      strataErrors a reg.strata_location reg.strata_buildings := by
  simp [computeErrors, hty, ha]

theorem strata_check {req : Request} {reg : Registration} {a : ReqAddress}
    {lsa lpc : Str} {ps : List (Str × Str)}
    (ha : req.address = some a)
    (hact : reg.status = RegStatus.ACTIVE)
    (hty : reg.registration_type = RegType.STRATA_HOTEL)
    (hsa : reg.strata_location.street_address = some lsa)
    (hpc : reg.strata_location.postal_code = some lpc)
    (hbs : reg.strata_buildings = ps.map (fun p => ⟨some p.1, some p.2⟩)) :
    check_permit_details req reg =
      if (candMatch (strataReqStreet a) (strataReqStreetSub a) (reqPostal a)
            lsa lpc
          || ps.any (fun p =>
              candMatch (strataReqStreet a) (strataReqStreetSub a)
                (reqPostal a) p.1 p.2)) = true then
        .ok (successResponse req reg, 200)
      else .ok (failureResponse req [ErrorCode.ADDRESS_MISMATCH], 400) := by
  have hC : computeErrors req reg =
      .ok (if (candMatch (strataReqStreet a) (strataReqStreetSub a)
              (reqPostal a) lsa lpc
            || ps.any (fun p =>
                candMatch (strataReqStreet a) (strataReqStreetSub a)
                  (reqPostal a) p.1 p.2)) = true
          then [] else [ErrorCode.ADDRESS_MISMATCH]) := by
    rw [strata_computeErrors ha hty, strataErrors_present hsa hpc, hbs,
      strataLoop_mapped]
    by_cases h1 : candMatch (strataReqStreet a) (strataReqStreetSub a)
        (reqPostal a) lsa lpc = true
    · simp [h1]
    · by_cases h2 : ps.any (fun p =>
          candMatch (strataReqStreet a) (strataReqStreetSub a) (reqPostal a)
            p.1 p.2) = true
      · simp [h1, h2]
      · simp [h1, h2]
  rw [check_resp_of_errs hact hC]
  by_cases h : (candMatch (strataReqStreet a) (strataReqStreetSub a)
        (reqPostal a) lsa lpc
      || ps.any (fun p =>
          candMatch (strataReqStreet a) (strataReqStreetSub a) (reqPostal a)
            p.1 p.2)) = true
  · simp [h]
  · simp [h]

/-- The registration `reg` with its building list replaced (used to state
the strata short-circuit property). -/
def withBuildings (reg : Registration) (bs : List StrataLocation) :
    Registration :=
  { reg with strata_buildings := bs }

/-- C2: for every active strata registration whose primary location and
buildings are present (the buildings given as the list `ps` of
street-address/postal pairs), the matcher checks the primary location and
the buildings in sequence: a candidate matches iff its street number —
`candStreetNumber`, the first space token of the text after the first
hyphen of its street-address line — equals the claim's street number or
the claim's first space token, and the 4-character space-stripped
case-folded postal keys agree; if any candidate matches the result is the
success payload, otherwise exactly one `ADDRESS_MISMATCH` error with HTTP
400; and evaluation stops at the first matching candidate: whenever the
buildings are a failing prefix followed by a matching building, the
candidates after it — even malformed ones with absent fields — are never
evaluated and the result is success. -/
theorem C2_strata_first_match (req : Request) (reg : Registration)
    (a : ReqAddress) (lsa lpc : Str) (ps : List (Str × Str))
    (ha : req.address = some a)
    (hact : reg.status = RegStatus.ACTIVE)
    (hty : reg.registration_type = RegType.STRATA_HOTEL)
    (hsa : reg.strata_location.street_address = some lsa)
    (hpc : reg.strata_location.postal_code = some lpc)
    (hbs : reg.strata_buildings = ps.map (fun p => ⟨some p.1, some p.2⟩)) :
    (check_permit_details req reg =
      if (candMatch (strataReqStreet a) (strataReqStreetSub a) (reqPostal a)
            lsa lpc
          || ps.any (fun p =>
              candMatch (strataReqStreet a) (strataReqStreetSub a)
                (reqPostal a) p.1 p.2)) = true then
        .ok (successResponse req reg, 200)
      else .ok (failureResponse req [ErrorCode.ADDRESS_MISMATCH], 400))
    ∧ (∀ (ps1 : List (Str × Str)) (sa pc : Str) (bs2 : List StrataLocation),
        (∀ p ∈ ps1, candMatch (strataReqStreet a) (strataReqStreetSub a)
          (reqPostal a) p.1 p.2 = false) →
        candMatch (strataReqStreet a) (strataReqStreetSub a) (reqPostal a)
          sa pc = true →
        check_permit_details req
          (withBuildings reg
            (ps1.map (fun p => ⟨some p.1, some p.2⟩)
              ++ ⟨some sa, some pc⟩ :: bs2)) =
          .ok (successResponse req reg, 200)) := by
  constructor
  · exact strata_check ha hact hty hsa hpc hbs
  · intro ps1 sa pc bs2 hfail hm
    have hC : computeErrors req
        (withBuildings reg
          (ps1.map (fun p => ⟨some p.1, some p.2⟩)
            ++ ⟨some sa, some pc⟩ :: bs2)) = .ok [] := by
      have h1 : computeErrors req
          (withBuildings reg
            (ps1.map (fun p => ⟨some p.1, some p.2⟩)
              ++ ⟨some sa, some pc⟩ :: bs2)) =
          strataErrors a reg.strata_location
            (ps1.map (fun p => ⟨some p.1, some p.2⟩)
              ++ ⟨some sa, some pc⟩ :: bs2) :=
        strata_computeErrors ha hty
      rw [h1, strataErrors_present hsa hpc]
      by_cases hcm : candMatch (strataReqStreet a) (strataReqStreetSub a)
          (reqPostal a) lsa lpc = true
      · simp [hcm]
      · rw [if_neg hcm,
          strataLoop_first_match _ _ _ ps1 sa pc bs2 hfail hm]
    have h2 : check_permit_details req
        (withBuildings reg
          (ps1.map (fun p => ⟨some p.1, some p.2⟩)
            ++ ⟨some sa, some pc⟩ :: bs2)) =
        if ([] : List ErrorCode) = [] then
          .ok (successResponse req
            (withBuildings reg
              (ps1.map (fun p => ⟨some p.1, some p.2⟩)
                ++ ⟨some sa, some pc⟩ :: bs2)), 200)
        else .ok (failureResponse req [], 400) :=
      check_resp_of_errs hact hC
    rw [h2]
    simp [successResponse, withBuildings]

/-- The sample strata registration of the spec's test sketch: primary
location plus three buildings; the claim matches the third building
only. -/
def sPairs : List (Str × Str) :=
  [("100 First St".data, "V1V 1V1".data),
   ("200 Second St".data, "V2V 2V2".data),
   ("Tower B - 300 Third St".data, "V3V 3V3".data)]

/-- An active strata registration built from `sPairs`. -/
def sRegStrata : Registration :=
  { status := RegStatus.ACTIVE, registration_type := RegType.STRATA_HOTEL,
    rental_property_address :=
      { street_number := none, unit_number := none, postal_code := none },
    strata_location :=
      { street_address := some "900 Main St".data,
        postal_code := some "V9V 9V9".data },
    strata_buildings := sPairs.map (fun p => ⟨some p.1, some p.2⟩),
    expiry_formatted := "2026-12-31".data }

/-- A strata validation request claiming street number 300. -/
def sReqStrata : Request :=
  { identifier := some "ST12345".data,
    address := some { streetNumber := some "300".data,
                      unitNumber := none,
                      postalCode := some "v3v3V3".data } }

/-- The address object of `sReqStrata`. -/
def sAddrStrata : ReqAddress :=
  { streetNumber := some "300".data, unitNumber := none,
    postalCode := some "v3v3V3".data }

theorem C2_witness :
    (check_permit_details sReqStrata sRegStrata =
      if (candMatch (strataReqStreet sAddrStrata)
            (strataReqStreetSub sAddrStrata) (reqPostal sAddrStrata)
            "900 Main St".data "V9V 9V9".data
          || sPairs.any (fun p =>
              candMatch (strataReqStreet sAddrStrata)
                (strataReqStreetSub sAddrStrata) (reqPostal sAddrStrata)
                p.1 p.2)) = true then
        .ok (successResponse sReqStrata sRegStrata, 200)
      else
        .ok (failureResponse sReqStrata [ErrorCode.ADDRESS_MISMATCH], 400))
    ∧ (∀ (ps1 : List (Str × Str)) (sa pc : Str) (bs2 : List StrataLocation),
        (∀ p ∈ ps1, candMatch (strataReqStreet sAddrStrata)
          (strataReqStreetSub sAddrStrata) (reqPostal sAddrStrata)
          p.1 p.2 = false) →
        candMatch (strataReqStreet sAddrStrata)
          (strataReqStreetSub sAddrStrata) (reqPostal sAddrStrata)
          sa pc = true →
        check_permit_details sReqStrata
          (withBuildings sRegStrata
            (ps1.map (fun p => ⟨some p.1, some p.2⟩)
              ++ ⟨some sa, some pc⟩ :: bs2)) =
          .ok (successResponse sReqStrata sRegStrata, 200)) :=
  C2_strata_first_match sReqStrata sRegStrata sAddrStrata
    "900 Main St".data "V9V 9V9".data sPairs
    (by decide) (by decide) (by decide) (by decide) (by decide) (by decide)

/-- C10: in the strata variant the postal test compares the 4-character
slices of the space-stripped lower-cased codes with no minimum-length
requirement: with a street-number match on the primary location (and no
buildings), the check succeeds exactly when the two `postal4` slices are
equal — in particular a request with no `postalCode` key (the empty
string) matches a candidate whose stored postal code is empty or
whitespace-only. -/
theorem C10_strata_postal_no_min_length (req : Request) (reg : Registration)
    (a : ReqAddress) (lsa lpc : Str)
    (ha : req.address = some a)
    (hact : reg.status = RegStatus.ACTIVE)
    (hty : reg.registration_type = RegType.STRATA_HOTEL)
    (hsa : reg.strata_location.street_address = some lsa)
    (hpc : reg.strata_location.postal_code = some lpc)
    (hbs : reg.strata_buildings = [])
    (hstreet : candStreetNumber lsa = strataReqStreet a
      ∨ candStreetNumber lsa = strataReqStreetSub a) :
    (check_permit_details req reg = .ok (successResponse req reg, 200) ↔
      postal4 (reqPostal a) = postal4 lpc)
    ∧ (a.postalCode = none → (∀ c ∈ lpc, c = ' ') →
        check_permit_details req reg = .ok (successResponse req reg, 200)) := by
  have hchk : check_permit_details req reg =
      if (candMatch (strataReqStreet a) (strataReqStreetSub a) (reqPostal a)
            lsa lpc
          || ([] : List (Str × Str)).any (fun p =>
              candMatch (strataReqStreet a) (strataReqStreetSub a)
                (reqPostal a) p.1 p.2)) = true then
        .ok (successResponse req reg, 200)
      else .ok (failureResponse req [ErrorCode.ADDRESS_MISMATCH], 400) :=
    strata_check ha hact hty hsa hpc (by simpa using hbs)
  simp only [List.any_nil, Bool.or_false] at hchk
  have hiff : check_permit_details req reg =
        .ok (successResponse req reg, 200) ↔
      postal4 (reqPostal a) = postal4 lpc := by
    constructor
    · intro hgoal
      by_cases hp : postal4 (reqPostal a) = postal4 lpc
      · exact hp
      · have hcm : candMatch (strataReqStreet a) (strataReqStreetSub a)
            (reqPostal a) lsa lpc = false := by
          simp [candMatch, hp]
        rw [hchk, hcm] at hgoal
        simp only [Bool.false_eq_true, if_false, Except.ok.injEq,
          Prod.mk.injEq] at hgoal
        exact absurd hgoal.1 (by simp [failureResponse, successResponse])
    · intro hp
      have hcm : candMatch (strataReqStreet a) (strataReqStreetSub a)
          (reqPostal a) lsa lpc = true := by
        simp [candMatch, hp, hstreet]
      rw [hchk, hcm]
      simp
  refine ⟨hiff, fun hnone hsp => ?_⟩
  rw [hiff]
  have h1 : reqPostal a = [] := by simp [reqPostal, hnone]
  have h2 : removeSpaces lpc = [] := by
    simp only [removeSpaces, List.filter_eq_nil_iff]
    intro c hc
    simp [hsp c hc]
  have h3 : postal4 lpc = [] := by
    simp only [postal4, h2, toLowerS, List.map_nil, List.take_nil]
  rw [h1, h3]
  rfl

/-- A strata registration whose only candidate has street line
"300 Third St" and a whitespace-only postal code. -/
def sRegStrataEmptyPostal : Registration :=
  { sRegStrata with
      strata_location :=
        { street_address := some "300 Third St".data,
          postal_code := some "  ".data },
      strata_buildings := [] }

/-- The address object of the no-postal-code strata request. -/
def sAddrStrataNoPostal : ReqAddress :=
  { streetNumber := some "300".data, unitNumber := none,
    postalCode := none }

/-- A strata request with no postal code at all. -/
def sReqStrataNoPostal : Request :=
  { identifier := some "ST1".data, address := some sAddrStrataNoPostal }

theorem C10_witness :
    (check_permit_details sReqStrataNoPostal sRegStrataEmptyPostal =
        .ok (successResponse sReqStrataNoPostal sRegStrataEmptyPostal,
          200) ↔
      postal4 (reqPostal sAddrStrataNoPostal) = postal4 "  ".data)
    ∧ (sAddrStrataNoPostal.postalCode = none →
        (∀ c ∈ ("  ".data : Str), c = ' ') →
        check_permit_details sReqStrataNoPostal sRegStrataEmptyPostal =
          .ok (successResponse sReqStrataNoPostal sRegStrataEmptyPostal,
            200)) :=
  C10_strata_postal_no_min_length sReqStrataNoPostal sRegStrataEmptyPostal
    sAddrStrataNoPostal "300 Third St".data "  ".data
    (by decide) (by decide) (by decide) (by decide) (by decide) (by decide)
    (by decide)

/-- A host registration whose permit postal code column is NULL. -/
def sRegNoPostal : Registration :=
  { sRegHost with rental_property_address :=
      { street_number := some "123".data, unit_number := none,
        postal_code := none } }

/-- C8 counterexample: with an active host registration whose permit
postal code is `None`, `check_permit_details` evaluates
`None.replace(" ", "")` and raises `AttributeError` — the matching logic
does not return a structured outcome for every record with absent
permit-address fields. -/
theorem C8_counterexample :
    check_permit_details sReq sRegNoPostal =
      .error PyExc.attributeError := by decide

/-- C8 (amended): `check_permit_details` returns a structured
`(response, status)` outcome — raising no exception — provided that,
when the registration is active, the request carries an address object
and the permit address fields the check reads are present: the permit
postal code for a host registration; the primary location's street
address and postal code and every building's street address and postal
code for a strata registration. -/
theorem C8_structured_outcome (req : Request) (reg : Registration)
    (hP : reg.status = RegStatus.ACTIVE →
      req.address.isSome = true
      ∧ (reg.registration_type = RegType.HOST →
          reg.rental_property_address.postal_code.isSome = true)
      ∧ (reg.registration_type = RegType.STRATA_HOTEL →
          reg.strata_location.street_address.isSome = true
          ∧ reg.strata_location.postal_code.isSome = true
          ∧ ∀ b ∈ reg.strata_buildings,
              b.street_address.isSome = true
                ∧ b.postal_code.isSome = true)) :
    ∃ resp code, check_permit_details req reg = .ok (resp, code) := by
  by_cases hact : reg.status = RegStatus.ACTIVE
  · obtain ⟨haS, hH, hS⟩ := hP hact
    obtain ⟨a, ha⟩ := Option.isSome_iff_exists.mp haS
    suffices hC : ∃ L, computeErrors req reg = Except.ok L by
      obtain ⟨L, hC⟩ := hC
      rw [check_resp_of_errs hact hC]
      by_cases hL : L = []
      · exact ⟨_, _, by rw [if_pos hL]⟩
      · exact ⟨_, _, by rw [if_neg hL]⟩
    cases hty : reg.registration_type with
    | HOST =>
      obtain ⟨ppc, hpc⟩ := Option.isSome_iff_exists.mp (hH hty)
      exact ⟨_, host_computeErrors ha hty hpc⟩
    | STRATA_HOTEL =>
      obtain ⟨h1, h2, h3⟩ := hS hty
      obtain ⟨lsa, hlsa⟩ := Option.isSome_iff_exists.mp h1
      obtain ⟨lpc, hlpc⟩ := Option.isSome_iff_exists.mp h2
      obtain ⟨r, hr⟩ := strataLoop_isOk (strataReqStreet a)
        (strataReqStreetSub a) (reqPostal a) reg.strata_buildings h3
      by_cases hcm : candMatch (strataReqStreet a) (strataReqStreetSub a)
          (reqPostal a) lsa lpc = true
      · exact ⟨[], by
          rw [strata_computeErrors ha hty, strataErrors_present hlsa hlpc,
            if_pos hcm]⟩
      · cases r with
        | true =>
          exact ⟨[], by
            rw [strata_computeErrors ha hty,
              strataErrors_present hlsa hlpc, if_neg hcm, hr]⟩
        | false =>
          exact ⟨[ErrorCode.ADDRESS_MISMATCH], by
            rw [strata_computeErrors ha hty,
              strataErrors_present hlsa hlpc, if_neg hcm, hr]⟩
    | PLATFORM => exact ⟨[], by simp [computeErrors, hty]⟩
  · exact ⟨inactiveResponse req reg, 200, by
      simp [check_permit_details, hact]⟩

theorem C8_witness :
    ∃ resp code, check_permit_details sReq sRegHost = .ok (resp, code) :=
  C8_structured_outcome sReq sRegHost
    (fun _ => ⟨by decide, fun _ => by decide,
      fun hh => absurd hh (by decide)⟩)

/-! ### Character facts used by the normalizer theorems -/

theorem toNat_ofNat_of_valid {n : Nat} (h : n < 55296) :
    (Char.ofNat n).toNat = n := by
  rw [Char.ofNat, dif_pos (Or.inl h)]
  rfl

theorem toNat_inj {a b : Char} (h : a.toNat = b.toNat) : a = b :=
  Char.ext (UInt32.toNat.inj h)

theorem char_eq_iff_toNat {c d : Char} : c = d ↔ c.toNat = d.toNat :=
  ⟨fun h => by rw [h], fun h => toNat_inj h⟩

theorem cUp_toNat (c : Char) :
    (cUp c).toNat =
      if 97 ≤ c.toNat ∧ c.toNat ≤ 122 then c.toNat - 32 else c.toNat := by
  unfold cUp Char.toUpper
  by_cases h : 97 ≤ c.toNat ∧ c.toNat ≤ 122
  · rw [if_pos ⟨h.1, h.2⟩, if_pos h]
    exact toNat_ofNat_of_valid (by omega)
  · rw [if_neg fun hc => h ⟨hc.1, hc.2⟩, if_neg h]

theorem cUp_eq_self {c : Char} (h : ¬(97 ≤ c.toNat ∧ c.toNat ≤ 122)) :
    cUp c = c := by
  unfold cUp Char.toUpper
  rw [if_neg fun hc => h ⟨hc.1, hc.2⟩]

theorem cUp_idem (c : Char) : cUp (cUp c) = cUp c := by
  by_cases h : 97 ≤ c.toNat ∧ c.toNat ≤ 122
  · have h2 : (cUp c).toNat = c.toNat - 32 := by rw [cUp_toNat, if_pos h]
    exact cUp_eq_self (by omega)
  · rw [cUp_eq_self h]
    exact cUp_eq_self h

theorem uleNat (a b : UInt32) : a ≤ b ↔ a.toNat ≤ b.toNat := by
  rw [UInt32.le_def, BitVec.le_def]
  exact Iff.rfl

theorem pyIsWordChar_iff (c : Char) : pyIsWordChar c = true ↔
    ((65 ≤ c.toNat ∧ c.toNat ≤ 90) ∨ (97 ≤ c.toNat ∧ c.toNat ≤ 122)
      ∨ (48 ≤ c.toNat ∧ c.toNat ≤ 57) ∨ c.toNat = 95) := by
  have h95 : (c = '_') ↔ c.toNat = 95 := char_eq_iff_toNat
  simp only [pyIsWordChar, Char.isAlphanum, Char.isAlpha, Char.isUpper,
    Char.isLower, Char.isDigit, Bool.or_eq_true, Bool.and_eq_true,
    decide_eq_true_eq, ge_iff_le, uleNat, h95, Char.toNat]
  norm_num
  tauto

theorem pyIsSpace_iff (c : Char) : pyIsSpace c = true ↔
    (c.toNat = 32 ∨ c.toNat = 9 ∨ c.toNat = 10 ∨ c.toNat = 13
      ∨ c.toNat = 11 ∨ c.toNat = 12) := by
  simp only [pyIsSpace, Bool.or_eq_true, decide_eq_true_eq,
    @char_eq_iff_toNat c]
  tauto

theorem pyIsWordChar_cUp (c : Char) :
    pyIsWordChar (cUp c) = pyIsWordChar c := by
  by_cases h : 97 ≤ c.toNat ∧ c.toNat ≤ 122
  · have h2 : (cUp c).toNat = c.toNat - 32 := by rw [cUp_toNat, if_pos h]
    have e1 : pyIsWordChar (cUp c) = true := by rw [pyIsWordChar_iff]; omega
    have e2 : pyIsWordChar c = true := by rw [pyIsWordChar_iff]; omega
    rw [e1, e2]
  · rw [cUp_eq_self h]

theorem cUp_eq_iff {c d : Char} (hd1 : ¬(65 ≤ d.toNat ∧ d.toNat ≤ 90))
    (hd2 : ¬(97 ≤ d.toNat ∧ d.toNat ≤ 122)) :
    cUp c = d ↔ c = d := by
  constructor
  · intro h
    by_cases hc : 97 ≤ c.toNat ∧ c.toNat ≤ 122
    · have h2 : (cUp c).toNat = c.toNat - 32 := by rw [cUp_toNat, if_pos hc]
      rw [h] at h2
      omega
    · rw [cUp_eq_self hc] at h
      exact h
  · intro h
    rw [h]
    exact cUp_eq_self hd2

theorem pyIsSpace_cUp (c : Char) : pyIsSpace (cUp c) = pyIsSpace c := by
  by_cases h : 97 ≤ c.toNat ∧ c.toNat ≤ 122
  · have h2 : (cUp c).toNat = c.toNat - 32 := by rw [cUp_toNat, if_pos h]
    have e1 : ¬ pyIsSpace (cUp c) = true := by rw [pyIsSpace_iff]; omega
    have e2 : ¬ pyIsSpace c = true := by rw [pyIsSpace_iff]; omega
    rw [Bool.not_eq_true] at e1 e2
    rw [e1, e2]
  · rw [cUp_eq_self h]

/-! ### Positional description of keyword occurrences (for C3/C4) -/

/-- Is position `i` of `s` a word boundary for a match that starts with a
word character?  `prev` is the character just before `s` (the scanning
context); position `0` uses it, position `j+1` looks at `s[j]`. -/
def boundaryAt (prev : Option Char) (s : Str) (i : Nat) : Bool :=
  match i with
  | 0 => boundaryOK prev
  | j + 1 =>
    match s.get? j with
    | some d => !pyIsWordChar d
    | none => false

/-- Does some alternative of the keyword regex match at position `i` of
`s`, starting at a word boundary? -/
def kwAtWordStart (prev : Option Char) (s : Str) (i : Nat) : Bool :=
  boundaryAt prev s i && (findKw (s.drop i)).isSome

/-- Is `s[i]` absent or a non-word character? -/
def noWordAt (s : Str) (j : Nat) : Bool :=
  match s.get? j with
  | some d => !pyIsWordChar d
  | none => true

/-- Does some keyword occur at position `i` of `s` as a whole word, i.e.
preceded and followed by a word boundary?  (This is the spec's
"whole-word" reading of the keyword removal.) -/
def wholeWordKwAt (s : Str) (i : Nat) : Bool :=
  kwList.any (fun kw =>
    isPrefixCI kw (s.drop i) && boundaryAt none s i
      && noWordAt s (i + kw.length))

theorem kwAtWordStart_cons (prev : Option Char) (c : Char) (rest : Str)
    (i : Nat) :
    kwAtWordStart prev (c :: rest) (i + 1) =
      kwAtWordStart (some c) rest i := by
  unfold kwAtWordStart boundaryAt
  cases i with
  | zero => rfl
  | succ j => rfl

/-- If no keyword alternative matches at a word-boundary start anywhere in
`s` (scanned with context `prev`), the keyword-removal pass returns `s`
unchanged. -/
theorem subKw_id_of_no_kw : ∀ (s : Str) (prev : Option Char),
    (∀ i, i < s.length → kwAtWordStart prev s i = false) →
    subKw prev s = s := by
  intro s
  induction s with
  | nil => intro prev _; exact subKw_nil prev
  | cons c rest ih =>
    intro prev h
    have h0 := h 0 (by simp)
    have hrest : ∀ i, i < rest.length →
        kwAtWordStart (some c) rest i = false := by
      intro i hi
      rw [← kwAtWordStart_cons prev c rest i]
      exact h (i + 1) (by simpa using Nat.succ_lt_succ hi)
    by_cases hb : boundaryOK prev = true
    · have hf : findKw (c :: rest) = none := by
        cases hfind : findKw (c :: rest) with
        | none => rfl
        | some kw =>
          simp [kwAtWordStart, List.drop_zero, hfind, boundaryAt, hb] at h0
      rw [subKw_nomatch hb hf]
      rw [ih (some c) hrest]
    · rw [subKw_nb (Bool.not_eq_true _ |>.mp hb)]
      rw [ih (some c) hrest]

/-- C3 counterexample: in "Flat" no keyword occurs as a whole word (the
keyword "Fl" occurs only as a proper prefix of the longer word "Flat"),
so the claim predicts the normal form "FLAT"; the code removes the prefix
"Fl" anyway and produces "AT". -/
theorem C3_counterexample :
    (∀ i, i < ("Flat".data : Str).length →
      wholeWordKwAt "Flat".data i = false)
    ∧ get_filtered_unit_number "Flat".data = "AT".data
    ∧ ("AT".data : Str) ≠ "FLAT".data := by
  refine ⟨by decide, by decide, by decide⟩

theorem boundaryAt_cons (prev : Option Char) (c : Char) (rest : Str)
    (i : Nat) :
    boundaryAt prev (c :: rest) (i + 1) = boundaryAt (some c) rest i := by
  cases i with
  | zero => rfl
  | succ j => rfl

theorem findKw_nil : findKw [] = none := rfl

theorem getLast?_cons_of_ne {c : Char} {t : Str} (h : t ≠ []) :
    (c :: t).getLast? = t.getLast? := by
  cases t with
  | nil => exact absurd rfl h
  | cons a l => exact List.getLast?_cons_cons

/-- The positive direction of the keyword removal: when position `i` is
the first word-boundary keyword-match position of `s` (scanned with
context `prev`) and `kw` is the alternative the ordered alternation picks
there, the scan copies the first `i` characters verbatim — so keyword
occurrences before `i`, necessarily mid-word, survive — deletes exactly
the `kw.length` matched characters, and continues after them with the
last consumed character as the new context. -/
theorem subKw_first_kw : ∀ (s : Str) (prev : Option Char) (i : Nat)
    (kw : Str),
    (∀ j, j < i → kwAtWordStart prev s j = false) →
    boundaryAt prev s i = true →
    findKw (s.drop i) = some kw →
    subKw prev s =
      s.take i ++ subKw ((s.take (i + kw.length)).getLast?)
        (s.drop (i + kw.length)) := by
  intro s
  induction s with
  | nil =>
    intro prev i kw _ _ hf
    rw [List.drop_nil, findKw_nil] at hf
    exact absurd hf (by simp)
  | cons c rest ih =>
    intro prev i kw hbefore hb hf
    cases i with
    | zero =>
      have hb0 : boundaryOK prev = true := hb
      have hf0 : findKw (c :: rest) = some kw := hf
      rw [subKw_match hb0 hf0]
      simp only [List.take_zero, List.nil_append, Nat.zero_add]
    | succ j =>
      have h0 := hbefore 0 (Nat.succ_pos j)
      have hstep : subKw prev (c :: rest) = c :: subKw (some c) rest := by
        by_cases hbp : boundaryOK prev = true
        · have hf0 : findKw (c :: rest) = none := by
            cases hfind : findKw (c :: rest) with
            | none => rfl
            | some kw2 =>
              simp [kwAtWordStart, List.drop_zero, hfind, boundaryAt,
                hbp] at h0
          exact subKw_nomatch hbp hf0
        · exact subKw_nb ((Bool.not_eq_true _).mp hbp)
      have hbefore2 : ∀ j2, j2 < j →
          kwAtWordStart (some c) rest j2 = false := by
        intro j2 hj2
        rw [← kwAtWordStart_cons prev c rest j2]
        exact hbefore (j2 + 1) (Nat.succ_lt_succ hj2)
      have hb2 : boundaryAt (some c) rest j = true := by
        rw [← boundaryAt_cons prev c rest j]
        exact hb
      have hf2 : findKw (rest.drop j) = some kw := hf
      have hkw : 0 < kw.length := kwList_pos kw (findKw_mem hf2)
      have hrne : rest ≠ [] := by
        intro hr
        rw [hr, List.drop_nil, findKw_nil] at hf2
        exact absurd hf2 (by simp)
      have htake : (c :: rest).take (j + 1) = c :: rest.take j := rfl
      have harith : j + 1 + kw.length = (j + kw.length) + 1 := by omega
      have hdrop : (c :: rest).drop (j + 1 + kw.length) =
          rest.drop (j + kw.length) := by
        rw [harith]
        exact List.drop_succ_cons
      have htne : rest.take (j + kw.length) ≠ [] := by
        cases hr : rest with
        | nil => exact absurd hr hrne
        | cons r0 rs =>
          cases hm : j + kw.length with
          | zero => omega
          | succ m => simp
      have hlast : ((c :: rest).take (j + 1 + kw.length)).getLast? =
          (rest.take (j + kw.length)).getLast? := by
        rw [harith]
        exact getLast?_cons_of_ne htne
      rw [hstep, ih (some c) j kw hbefore2 hb2 hf2, htake, hdrop, hlast,
        List.cons_append]

/-- C3 (amended): keywords are removed exactly where the ordered
alternation matches starting at a word boundary — including occurrences
that are proper prefixes of a longer word (no trailing word boundary is
required); an occurrence that does not start at a word boundary is never
removed.  Formally: (identity direction) the keyword-removal pass is the
identity on any string with no boundary-start keyword occurrence;
(removal direction) at the first boundary-start match the pass copies the
preceding characters — including any mid-word keyword occurrences among
them — verbatim, deletes exactly the matched alternative, and continues
after it; and concretely the pass maps "Flat" to "at" (prefix removal)
and "Suite xFl" to " xFl" (the boundary-start "Suite" is removed while
the mid-word "Fl" of "xFl" survives). -/
theorem C3_keyword_removal_at_word_start :
    (∀ (s : Str) (prev : Option Char),
      (∀ i, i < s.length → kwAtWordStart prev s i = false) →
      subKw prev s = s)
    ∧ (∀ (s : Str) (prev : Option Char) (i : Nat) (kw : Str),
        (∀ j, j < i → kwAtWordStart prev s j = false) →
        boundaryAt prev s i = true →
        findKw (s.drop i) = some kw →
        subKw prev s =
          s.take i ++ subKw ((s.take (i + kw.length)).getLast?)
            (s.drop (i + kw.length)))
    ∧ subKw none "Flat".data = "at".data
    ∧ subKw none "Suite xFl".data = " xFl".data := by
  exact ⟨subKw_id_of_no_kw, subKw_first_kw, by decide, by decide⟩

theorem C3_witness :
    subKw none "4B 9".data = "4B 9".data
    ∧ subKw none "x Suite".data =
        ("x Suite".data : Str).take 2 ++
          subKw ((("x Suite".data : Str).take (2 + 5)).getLast?)
            (("x Suite".data : Str).drop (2 + 5)) :=
  ⟨C3_keyword_removal_at_word_start.1 "4B 9".data none (by decide),
   C3_keyword_removal_at_word_start.2.1 "x Suite".data none 2 "suite".data
     (by decide) (by decide) (by decide)⟩

/-! ### Facts about the leading-zero transform (for C4) -/

theorem zdrop_sub {t : Str} {c : Char} (hc : c ∈ zdrop t) :
    c ∈ t ∨ c = '0' := by
  cases t with
  | nil => simp [zdrop] at hc
  | cons c0 r =>
    by_cases h0 : c0 = '0'
    · simp only [zdrop, if_pos h0] at hc
      by_cases ht : (c0 :: r).dropWhile (fun d => d = '0') = []
      · rw [if_pos ht] at hc
        right
        simpa using hc
      · rw [if_neg ht] at hc
        exact Or.inl (((c0 :: r).dropWhile_sublist _).subset hc)
    · simp only [zdrop, if_neg h0] at hc
      exact Or.inl hc

theorem zdrop_ne_nil {t : Str} (h : t ≠ []) : zdrop t ≠ [] := by
  cases t with
  | nil => exact absurd rfl h
  | cons c0 r =>
    by_cases h0 : c0 = '0'
    · simp only [zdrop, if_pos h0]
      by_cases ht : (c0 :: r).dropWhile (fun d => d = '0') = []
      · rw [if_pos ht]; simp
      · rw [if_neg ht]; exact ht
    · simp only [zdrop, if_neg h0]
      simp

theorem zdrop_word {t : Str} (hw : ∀ c ∈ t, pyIsWordChar c = true) :
    ∀ c ∈ zdrop t, pyIsWordChar c = true := by
  intro c hc
  rcases zdrop_sub hc with h | h
  · exact hw c h
  · rw [h]; decide

theorem zdrop_cons_zero (r : Str) :
    zdrop ('0' :: r) =
      if ('0' :: r).dropWhile (fun d => d = '0') = [] then ['0']
      else ('0' :: r).dropWhile (fun d => d = '0') := rfl

theorem zdrop_cons_ne {c0 : Char} {r : Str} (h : ¬ c0 = '0') :
    zdrop (c0 :: r) = c0 :: r := by
  simp [zdrop, h]

theorem zdrop_idem (t : Str) : zdrop (zdrop t) = zdrop t := by
  cases t with
  | nil => rfl
  | cons c0 r =>
    by_cases h0 : c0 = '0'
    · subst h0
      rw [zdrop_cons_zero]
      by_cases ht : ('0' :: r).dropWhile (fun d => d = '0') = []
      · rw [if_pos ht]
        decide
      · rw [if_neg ht]
        cases he : ('0' :: r).dropWhile (fun d => d = '0') with
        | nil => exact absurd he ht
        | cons d r2 =>
          have hd := List.head?_dropWhile_not
            (fun d => decide (d = '0')) ('0' :: r)
          rw [he] at hd
          simp only [List.head?_cons] at hd
          have hd0 : ¬ d = '0' := by simpa using hd
          rw [zdrop_cons_ne hd0]
    · rw [zdrop_cons_ne h0, zdrop_cons_ne h0]

theorem dropZeros_map_cUp (l : Str) :
    (l.map cUp).dropWhile (fun d => d = '0') =
      (l.dropWhile (fun d => d = '0')).map cUp := by
  rw [List.dropWhile_map]
  have hpred : ((fun d => decide (d = '0')) ∘ cUp) =
      (fun d => decide (d = '0')) :=
    funext fun d =>
      decide_eq_decide.mpr (cUp_eq_iff (by decide) (by decide))
  rw [hpred]

theorem zdrop_map_cUp (t : Str) :
    zdrop (t.map cUp) = (zdrop t).map cUp := by
  cases t with
  | nil => rfl
  | cons c0 r =>
    have hz : cUp '0' = '0' := by decide
    by_cases h0 : c0 = '0'
    · subst h0
      rw [List.map_cons, hz, zdrop_cons_zero, zdrop_cons_zero]
      have hdw : ('0' :: r.map cUp).dropWhile (fun d => d = '0') =
          (('0' :: r).dropWhile (fun d => d = '0')).map cUp := by
        have h3 := dropZeros_map_cUp ('0' :: r)
        rw [List.map_cons, hz] at h3
        exact h3
      rw [hdw]
      by_cases ht : ('0' :: r).dropWhile (fun d => d = '0') = []
      · rw [ht]
        simp [hz]
      · rw [if_neg (by simpa using ht), if_neg ht]
    · have hc : ¬ cUp c0 = '0' :=
        fun h => h0 ((cUp_eq_iff (by decide) (by decide)).mp h)
      rw [List.map_cons, zdrop_cons_ne hc, zdrop_cons_ne h0, List.map_cons]

/-! ### Facts about the per-word-run scan (for C4) -/

theorem mem_mapWordRuns {v : Str} {c : Char}
    (hc : c ∈ mapWordRuns zdrop v) : c ∈ v ∨ c = '0' := by
  cases v with
  | nil => rw [mapWordRuns_nil] at hc; simp at hc
  | cons d rest =>
    by_cases hw : pyIsWordChar d = true
    · rw [mapWordRuns_word hw] at hc
      rcases List.mem_append.mp hc with h | h
      · rcases zdrop_sub h with h2 | h2
        · rcases List.mem_cons.mp h2 with rfl | h3
          · exact Or.inl (List.mem_cons_self _ _)
          · exact Or.inl (List.mem_cons_of_mem d
              ((rest.takeWhile_sublist _).subset h3))
        · exact Or.inr h2
      · rcases mem_mapWordRuns h with h2 | h2
        · exact Or.inl (List.mem_cons_of_mem d
            ((rest.dropWhile_sublist _).subset h2))
        · exact Or.inr h2
    · rw [mapWordRuns_nonword ((Bool.not_eq_true _).mp hw)] at hc
      rcases List.mem_cons.mp hc with rfl | h
      · exact Or.inl (List.mem_cons_self _ _)
      · rcases mem_mapWordRuns h with h2 | h2
        · exact Or.inl (List.mem_cons_of_mem d h2)
        · exact Or.inr h2
termination_by v.length
decreasing_by
  all_goals
    subst_vars
    try simp only [List.length_cons]
    first
      | exact Nat.lt_succ_of_le (length_dropWhile_le _ _)
      | exact Nat.lt_succ_self _

theorem mapWordRuns_word_append {A B : Str} (hA : A ≠ [])
    (hAw : ∀ c ∈ A, pyIsWordChar c = true)
    (hB : B = [] ∨ ∃ d B', B = d :: B' ∧ pyIsWordChar d = false) :
    mapWordRuns zdrop (A ++ B) = zdrop A ++ mapWordRuns zdrop B := by
  cases A with
  | nil => exact absurd rfl hA
  | cons a A' =>
    have ha : pyIsWordChar a = true := hAw a (List.mem_cons_self a A')
    rw [List.cons_append, mapWordRuns_word ha]
    have ht : (A' ++ B).takeWhile pyIsWordChar = A' := by
      rw [List.takeWhile_append_of_pos
        (fun c hc => hAw c (List.mem_cons_of_mem a hc))]
      rcases hB with rfl | ⟨d, B', rfl, hd⟩
      · simp
      · simp [List.takeWhile_cons, hd]
    have hd2 : (A' ++ B).dropWhile pyIsWordChar = B := by
      rw [List.dropWhile_append_of_pos
        (fun c hc => hAw c (List.mem_cons_of_mem a hc))]
      rcases hB with rfl | ⟨d, B', rfl, hd⟩
      · simp
      · simp [List.dropWhile_cons, hd]
    rw [ht, hd2]

theorem mapWordRuns_idem (v : Str) :
    mapWordRuns zdrop (mapWordRuns zdrop v) = mapWordRuns zdrop v := by
  cases v with
  | nil => rfl
  | cons c rest =>
    by_cases hw : pyIsWordChar c = true
    · rw [mapWordRuns_word hw]
      have hrun_ne : (c :: rest.takeWhile pyIsWordChar) ≠ [] := by simp
      have hrun_w : ∀ x ∈ c :: rest.takeWhile pyIsWordChar,
          pyIsWordChar x = true := by
        intro x hx
        rcases List.mem_cons.mp hx with rfl | hx2
        · exact hw
        · exact List.mem_takeWhile_imp hx2
      have hB : mapWordRuns zdrop (rest.dropWhile pyIsWordChar) = []
          ∨ ∃ d B', mapWordRuns zdrop (rest.dropWhile pyIsWordChar)
              = d :: B' ∧ pyIsWordChar d = false := by
        cases hdw : rest.dropWhile pyIsWordChar with
        | nil => left; rfl
        | cons d r2 =>
          have hd : pyIsWordChar d = false := by
            have h5 := List.head?_dropWhile_not pyIsWordChar rest
            rw [hdw] at h5
            simpa using h5
          right
          exact ⟨d, mapWordRuns zdrop r2, mapWordRuns_nonword hd, hd⟩
      rw [mapWordRuns_word_append (zdrop_ne_nil hrun_ne)
        (zdrop_word hrun_w) hB]
      rw [zdrop_idem]
      rw [mapWordRuns_idem (rest.dropWhile pyIsWordChar)]
    · have hw' : pyIsWordChar c = false := (Bool.not_eq_true _).mp hw
      rw [mapWordRuns_nonword hw', mapWordRuns_nonword hw',
        mapWordRuns_idem rest]
termination_by v.length
decreasing_by
  all_goals
    subst_vars
    try simp only [List.length_cons]
    first
      | exact Nat.lt_succ_of_le (length_dropWhile_le _ _)
      | exact Nat.lt_succ_self _

theorem mapWordRuns_map_cUp (v : Str) :
    (mapWordRuns zdrop v).map cUp = mapWordRuns zdrop (v.map cUp) := by
  cases v with
  | nil => rfl
  | cons c rest =>
    have hpw : (pyIsWordChar ∘ cUp) = pyIsWordChar := funext pyIsWordChar_cUp
    by_cases hw : pyIsWordChar c = true
    · have hwu : pyIsWordChar (cUp c) = true := by
        rw [pyIsWordChar_cUp]; exact hw
      rw [mapWordRuns_word hw, List.map_append, List.map_cons,
        mapWordRuns_word hwu, List.takeWhile_map, List.dropWhile_map, hpw]
      rw [← zdrop_map_cUp, List.map_cons]
      rw [mapWordRuns_map_cUp (rest.dropWhile pyIsWordChar)]
    · have hw' : pyIsWordChar c = false := (Bool.not_eq_true _).mp hw
      have hwu : pyIsWordChar (cUp c) = false := by
        rw [pyIsWordChar_cUp]; exact hw'
      rw [mapWordRuns_nonword hw', List.map_cons, List.map_cons,
        mapWordRuns_nonword hwu, mapWordRuns_map_cUp rest]
termination_by v.length
decreasing_by
  all_goals
    subst_vars
    try simp only [List.length_cons]
    first
      | exact Nat.lt_succ_of_le (length_dropWhile_le _ _)
      | exact Nat.lt_succ_self _

/-! ### C4: idempotence of the Address Normalizer -/

theorem toUpperS_idem (l : Str) : toUpperS (toUpperS l) = toUpperS l := by
  simp only [toUpperS, List.map_map]
  exact List.map_congr_left fun c _ => cUp_idem c

theorem head?_mem {l : Str} {c : Char} (hc : l.head? = some c) : c ∈ l := by
  cases l with
  | nil => simp at hc
  | cons a t =>
    simp only [List.head?_cons, Option.some.injEq] at hc
    rw [← hc]
    exact List.mem_cons_self a t

/-- Every character of a normalized unit number: never a hyphen, a period
or whitespace (step 3 removes them, step 4 only reuses characters of its
input or '0', step 5 maps letters to letters). -/
theorem gfu_chars {x : Str} {c : Char}
    (hc : c ∈ get_filtered_unit_number x) :
    ¬(c = '-' ∨ c = '.' ∨ pyIsSpace c = true) := by
  simp only [get_filtered_unit_number, toUpperS] at hc
  obtain ⟨d, hd, rfl⟩ := List.mem_map.mp hc
  have hd2 : d ∈ removePunct (subKw none (stripLeadingMarks x)) ∨ d = '0' :=
    mem_mapWordRuns hd
  have hdgood : ¬(d = '-' ∨ d = '.' ∨ pyIsSpace d = true) := by
    rcases hd2 with h | h
    · simp only [removePunct] at h
      have h2 := (List.mem_filter.mp h).2
      simp only [Bool.not_eq_true', Bool.or_eq_false_iff,
        decide_eq_false_iff_not] at h2
      rintro (h3 | h3 | h3)
      · exact h2.1.1 h3
      · exact h2.1.2 h3
      · rw [h2.2] at h3
        exact Bool.false_ne_true h3
    · rw [h]
      decide
  rintro (h3 | h3 | h3)
  · exact hdgood (Or.inl ((cUp_eq_iff (by decide) (by decide)).mp h3))
  · exact hdgood (Or.inr (Or.inl
      ((cUp_eq_iff (by decide) (by decide)).mp h3)))
  · rw [pyIsSpace_cUp] at h3
    exact hdgood (Or.inr (Or.inr h3))

theorem stripLeadingMarks_id {s : Str}
    (h : ∀ c, s.head? = some c → ¬(c = '#' ∨ c = '-')) :
    stripLeadingMarks s = s := by
  cases s with
  | nil => rfl
  | cons c r =>
    have hc := h c rfl
    have h1 : ¬ c = '#' := fun he => hc (Or.inl he)
    have h2 : ¬ c = '-' := fun he => hc (Or.inr he)
    simp [stripLeadingMarks, h1, h2]

theorem removePunct_id {s : Str}
    (h : ∀ c ∈ s, ¬(c = '-' ∨ c = '.' ∨ pyIsSpace c = true)) :
    removePunct s = s := by
  simp only [removePunct]
  rw [List.filter_eq_self]
  intro a ha
  have h2 := h a ha
  simp only [Bool.not_eq_true', Bool.or_eq_false_iff,
    decide_eq_false_iff_not]
  refine ⟨⟨fun h3 => h2 (Or.inl h3), fun h3 => h2 (Or.inr (Or.inl h3))⟩, ?_⟩
  cases h4 : pyIsSpace a with
  | false => rfl
  | true => exact absurd (Or.inr (Or.inr h4)) h2

/-- C4 counterexample: the normalizer is not idempotent — "Suite #4"
normalizes to "#4" (the keyword removal exposes a '#' that step 1 can no
longer see), and normalizing again strips the '#' and yields "4". -/
theorem C4_counterexample :
    get_filtered_unit_number (get_filtered_unit_number "Suite #4".data) ≠
      get_filtered_unit_number "Suite #4".data := by decide

/-- C4 (amended): the normalizer is idempotent on every input whose
normalized form does not begin with '#' and contains no keyword
occurrence starting at a word boundary; in general a second normalization
can differ (see the counterexample "Suite #4"). -/
theorem C4_idempotent_on_stable_outputs (x : Str)
    (h1 : (get_filtered_unit_number x).head? ≠ some '#')
    (h2 : ∀ i, i < (get_filtered_unit_number x).length →
      kwAtWordStart none (get_filtered_unit_number x) i = false) :
    get_filtered_unit_number (get_filtered_unit_number x) =
      get_filtered_unit_number x := by
  have hy : get_filtered_unit_number x =
      toUpperS (subZeros (removePunct (subKw none (stripLeadingMarks x)))) :=
    rfl
  have hchars : ∀ c ∈ get_filtered_unit_number x,
      ¬(c = '-' ∨ c = '.' ∨ pyIsSpace c = true) :=
    fun c hc => gfu_chars hc
  have e1 : stripLeadingMarks (get_filtered_unit_number x) =
      get_filtered_unit_number x := by
    apply stripLeadingMarks_id
    intro c hc hor
    rcases hor with h | h
    · rw [h] at hc
      exact h1 hc
    · exact hchars c (head?_mem hc) (Or.inl h)
  have e2 : subKw none (get_filtered_unit_number x) =
      get_filtered_unit_number x :=
    subKw_id_of_no_kw _ none h2
  have e3 : removePunct (get_filtered_unit_number x) =
      get_filtered_unit_number x :=
    removePunct_id hchars
  have e4 : subZeros (get_filtered_unit_number x) =
      get_filtered_unit_number x := by
    have hcal : toUpperS (subZeros
        (removePunct (subKw none (stripLeadingMarks x)))) =
        subZeros (toUpperS
          (removePunct (subKw none (stripLeadingMarks x)))) :=
      mapWordRuns_map_cUp _
    rw [hy, hcal]
    exact mapWordRuns_idem _
  have e5 : toUpperS (get_filtered_unit_number x) =
      get_filtered_unit_number x := by
    rw [hy]
    exact toUpperS_idem _
  show toUpperS (subZeros (removePunct (subKw none
    (stripLeadingMarks (get_filtered_unit_number x))))) = _
  rw [e1, e2, e3, e4, e5]

theorem C4_witness :
    get_filtered_unit_number (get_filtered_unit_number "Suite 4B".data) =
      get_filtered_unit_number "Suite 4B".data :=
  C4_idempotent_on_stable_outputs "Suite 4B".data (by decide) (by decide)
